import Mathlib

/-
  Verification development for the gcs_statistics repository.

  The definitions below are a shallow embedding of the numeric /
  list-processing core of the repository:
    - model.py   : human_readable_size, GCSFileFetcher.fetch_file_records
    - view.py    : show_statistics, plot_histogram, plot_daily_file_counts
    - controller.py : process_prefix

  Machine floats are idealised as exact rationals (and reals where an
  irrational value such as a square root or a real cube root occurs);
  a Python exception (ValueError from int(nan), IndexError from tuple
  indexing, ...) is modelled as Option.none.
-/

namespace GCSStats

/-! ## SizeFormatter: model.py, human_readable_size (lines 17-33) -/

/-- The unit tuple of model.py line 29: size_name = ("B", "KB", "MB", "GB", "TB", "PB"). -/
def size_name : List String := ["B", "KB", "MB", "GB", "TB", "PB"]

/-- Python sequence indexing t[i]: a non-negative index is in range when i < len(t);
a negative index counts from the end (t[-1] is the last element) and is in range
when 0 <= i + len(t).  Out-of-range indexing raises IndexError, modelled as none. -/
def pyIndex (l : List String) (i : ℤ) : Option String :=
  if 0 ≤ i then l[i.toNat]?
  else if 0 ≤ i + l.length then l[(i + l.length).toNat]?
  else none

/-- Rat.floor restated as the floor of the FloorRing instance on the rationals
(the former is kernel-computable, the latter is what the library lemmas use). -/
theorem ratFloor_eq (q : ℚ) : Rat.floor q = ⌊q⌋ := by
  rw [Rat.floor_def', Rat.floor_def]

/-- Evaluation rule for Rat.floor at a concrete rational. -/
theorem ratFloor_eval {q : ℚ} {z : ℤ} (h1 : (z : ℚ) ≤ q) (h2 : q < z + 1) :
    Rat.floor q = z := by
  rw [ratFloor_eq]
  exact Int.floor_eq_iff.mpr ⟨h1, h2⟩

/-- Python round(x, 2): round to 2 decimal places, halves to even (banker's rounding). -/
def pythonRound2 (q : ℚ) : ℚ :=
  let m : ℚ := q * 100
  let f : ℤ := Rat.floor m
  let r : ℚ := m - f
  let n : ℤ :=
    if r < 1/2 then f
    else if 1/2 < r then f + 1
    else if f % 2 = 0 then f else f + 1
  (n : ℚ) / 100

/-- Decimal rendering of a value already rounded to 2 decimal places, as Python's
float repr prints it inside the f-string of model.py line 33 (1 prints as "1.0",
3/2 prints as "1.5", 21/20 prints as "1.05"). -/
def qToDecimalString (q : ℚ) : String :=
  let a : ℤ := Rat.floor (q * 100)
  let ip : ℤ := a / 100
  let fp : ℕ := (a % 100).toNat
  toString ip ++ "." ++
    (if fp % 10 = 0 then toString (fp / 10)
     else if fp < 10 then "0" ++ toString fp
     else toString fp)

/-- model.py lines 27-33.  For positive x the exponent computed by
int(np.floor(np.log(size_bytes) / np.log(1024))) is exactly the floor of the
base-1024 logarithm, realised here by Int.log 1024.  When that exponent is
negative, np.power(1024, i) at line 31 — an integer base raised to a negative
integer power — raises ValueError in numpy, so the call fails (none) before
the tuple lookup of line 33 is reached.  For 0 ≤ i the power is exact for the
in-range exponents 0..5, and the tuple lookup size_name[i] raises IndexError
(none) for i ≥ 6 (for i ≥ 7 the int64 power overflows silently first, but the
call still ends in the IndexError, so the observable result is the same).
For negative x, np.log yields NaN and the int() conversion raises ValueError
(none). -/
def human_readable_size (size_bytes : ℚ) : Option String :=
  if size_bytes = 0 then some "0 B"
  else if size_bytes < 0 then none
  else
    let i : ℤ := Int.log 1024 size_bytes
    if i < 0 then none
    else
      match pyIndex size_name i with
      | none => none
      | some unit =>
        let p : ℚ := (1024 : ℚ) ^ i
        let s : ℚ := pythonRound2 (size_bytes / p)
        some (qToDecimalString s ++ " " ++ unit)

/-- Evaluation rule for Int.log: b ^ z ≤ r < b ^ (z+1) pins the value down. -/
theorem int_log_eval {b : ℕ} (hb : 1 < b) {r : ℚ} (hr : 0 < r) {z : ℤ}
    (h1 : (b : ℚ) ^ z ≤ r) (h2 : r < (b : ℚ) ^ (z + 1)) : Int.log b r = z := by
  refine le_antisymm ?_ ((Int.zpow_le_iff_le_log hb hr).mp h1)
  have h3 := (Int.lt_zpow_iff_log_lt hb hr).mp h2
  omega

/-! ## RecordNormalizer: model.py, GCSFileFetcher.fetch_file_records (lines 58-105)

A raw listing entry carries a name, a size and a creation time; timestamps are
idealised as rational day numbers (fractional part = time of day), so the
date-only projection of view.py line 245 is the floor. -/

/-- A raw object record as yielded by the storage listing (name, size, created_time). -/
structure RawRecord where
  name : String
  size : ℚ
  created : ℚ
deriving DecidableEq

/-- A row of the DataFrame built in model.py lines 88-92. -/
structure FileRecord where
  file_name : String
  file_size_bytes : ℚ
  created_time : ℚ
deriving DecidableEq

/-- Python name.endswith with the one-character path-separator suffix of
model.py line 81: the last character of the name is the separator. -/
def endsWithSlash (s : String) : Bool := s.data.getLast? == some '/'

/-- The filter of model.py lines 81-82: directory marker entries
(name ending in the path separator) are skipped. -/
def keepRecord (r : RawRecord) : Bool := ! endsWithSlash r.name

/-- model.py lines 88-92: a kept raw record maps 1:1 to a DataFrame row. -/
def toFileRecord (r : RawRecord) : FileRecord :=
  { file_name := r.name, file_size_bytes := r.size, created_time := r.created }

/-- What df.sort_values on created_time at model.py line 103 guarantees of its
result: a permutation of the input that is sorted ascending by created_time.
The default sort kind (quicksort) fixes no tie order, so the embedding
quantifies over any sorting function with these two properties. -/
def SortsByCreated (f : List FileRecord → List FileRecord) : Prop :=
  ∀ l : List FileRecord,
    (f l).Perm l ∧ (f l).Pairwise (fun a b => a.created_time ≤ b.created_time)

/-- model.py lines 80-103: drop directory markers, build rows, sort by
created_time.  (Line 100 additionally derives the human-readable size column;
it is tracked as a column name in Frame below, since its values are a pointwise
function of file_size_bytes.) -/
def fetch_file_records (f : List FileRecord → List FileRecord)
    (raw : List RawRecord) : List FileRecord :=
  f ((raw.filter keepRecord).map toFileRecord)

/-- One concrete sorting function satisfying SortsByCreated, used to
instantiate witnesses. -/
def sortByCreated (l : List FileRecord) : List FileRecord :=
  l.insertionSort (fun a b => a.created_time ≤ b.created_time)

instance : IsTotal FileRecord (fun a b => a.created_time ≤ b.created_time) :=
  ⟨fun a b => le_total a.created_time b.created_time⟩

instance : IsTrans FileRecord (fun a b => a.created_time ≤ b.created_time) :=
  ⟨fun _ _ _ h1 h2 => le_trans h1 h2⟩

theorem sortsByCreated_sortByCreated : SortsByCreated sortByCreated := by
  intro l
  constructor
  · exact List.perm_insertionSort _ l
  · exact List.sorted_insertionSort _ l

/-- A pandas DataFrame, as far as the claims observe it: its rows and its
column (field) names.  fetch_file_records produces the four columns of
model.py lines 88-100; plot_daily_file_counts assigns one more. -/
structure Frame where
  rows : List FileRecord
  cols : List String
deriving DecidableEq

/-- The columns of the frame returned by GCSFileFetcher.fetch_file_records. -/
def baseCols : List String :=
  ["file_name", "file_size_bytes", "created_time", "file_size_hr"]

/-- The frame handed to the view layer by controller.py line 39: rows from
fetch_file_records; an empty listing gives an empty frame with no columns
(pd.DataFrame([]) has no columns, and model.py line 98 skips the rest). -/
def fetchFrame (f : List FileRecord → List FileRecord) (raw : List RawRecord) : Frame :=
  let rows := fetch_file_records f raw
  { rows := rows, cols := if rows = [] then [] else baseCols }

/-! ## StatisticsEngine: view.py, show_statistics (lines 44-83) -/

/-- The file_size_bytes column of a frame. -/
def sizesOf (df : Frame) : List ℚ := df.rows.map (fun r => r.file_size_bytes)

/-- pandas Series.mean(): arithmetic mean; NaN (none) on an empty series. -/
def seriesMean (xs : List ℚ) : Option ℚ :=
  if xs = [] then none else some (xs.sum / xs.length)

/-- pandas Series.var() with the default ddof=1: the sum of squared deviations
from the mean divided by n - 1; NaN (none) when fewer than two values. -/
def seriesSampleVar (xs : List ℚ) : Option ℚ :=
  if 2 ≤ xs.length then
    some ((xs.map (fun x => (x - xs.sum / xs.length) ^ 2)).sum / (xs.length - 1))
  else none

/-- view.py line 64, the std of the file_size_bytes column: pandas std is the
square root of the ddof=1 variance; NaN (none) when fewer than two values,
in particular for a single-element series. -/
noncomputable def series_std (xs : List ℚ) : Option ℝ :=
  Option.map (fun v : ℚ => Real.sqrt ((v : ℚ) : ℝ)) (seriesSampleVar xs)

/-- pandas Series.max(): NaN (none) on an empty series. -/
def seriesMax (xs : List ℚ) : Option ℚ :=
  match xs with
  | [] => none
  | x :: t => some (t.foldl max x)

/-- pandas Series.min(): NaN (none) on an empty series. -/
def seriesMin (xs : List ℚ) : Option ℚ :=
  match xs with
  | [] => none
  | x :: t => some (t.foldl min x)

/-- The statistics printed and logged by show_statistics. -/
structure StatsOutput where
  count : ℕ
  mean_hr : String
  std_hr : String
  max_hr : String
  min_hr : String

/-- Formatting a possibly-NaN value: human_readable_size raises on NaN
(np.log(nan) is nan and int(nan) raises ValueError). -/
def hrOpt (x : Option ℚ) : Option String :=
  match x with
  | none => none
  | some v => human_readable_size v

/-- Python round(x, 2) over the reals (for the irrational standard deviation):
round half to even at 2 decimal places. -/
noncomputable def pythonRound2R (x : ℝ) : ℚ :=
  let f : ℤ := ⌊x * 100⌋
  let r : ℝ := x * 100 - f
  let n : ℤ :=
    if r < 1/2 then f
    else if 1/2 < r then f + 1
    else if f % 2 = 0 then f else f + 1
  (n : ℚ) / 100

/-- The real-valued variant of human_readable_size, used for the standard
deviation (an irrational square root).  Mirrors model.py lines 27-33 over ℝ,
including the ValueError (none) of np.power at line 31 when the computed
exponent is negative. -/
noncomputable def human_readable_size_real (x : ℝ) : Option String :=
  if x = 0 then some "0 B"
  else if x < 0 then none
  else
    let i : ℤ := Int.log 1024 x
    if i < 0 then none
    else
      match pyIndex size_name i with
      | none => none
      | some unit =>
        some (qToDecimalString (pythonRound2R (x / (1024 : ℝ) ^ i)) ++ " " ++ unit)

/-- view.py lines 44-83: compute mean, std, max, min of file_size_bytes and
format each with human_readable_size.  Formatting NaN (empty input for mean,
max, min; fewer than two rows for std) raises ValueError, so the whole call
fails (none).  The input frame is read, never written. -/
noncomputable def show_statistics (df : Frame) : Option StatsOutput × Frame :=
  let xs := sizesOf df
  let out : Option StatsOutput := do
    let mS ← hrOpt (seriesMean xs)
    let sS ← match series_std xs with
             | none => none
             | some s => human_readable_size_real s
    let mxS ← hrOpt (seriesMax xs)
    let mnS ← hrOpt (seriesMin xs)
    pure { count := xs.length, mean_hr := mS, std_hr := sS, max_hr := mxS, min_hr := mnS }
  (out, df)

/-! ## HistogramBinner: view.py, plot_histogram (lines 178-225) -/

/-- Kernel-computable ceiling on the rationals. -/
def ratCeil (q : ℚ) : ℤ := -Rat.floor (-q)

theorem ratCeil_eq (q : ℚ) : ratCeil q = ⌈q⌉ := by
  rw [ratCeil, ratFloor_eq, Int.floor_neg, neg_neg]

/-- np.percentile(a, p) with the default linear interpolation: sort ascending,
take the virtual index h = p/100 * (n-1), and interpolate linearly between the
elements at floor(h) and ceil(h).  (np.percentile on an empty array raises;
plot_histogram only reaches it with a non-empty frame, and the n = 0 value
here is junk that no theorem relies on.) -/
def percentile (xs : List ℚ) (p : ℚ) : ℚ :=
  let s := xs.insertionSort (fun a b => a ≤ b)
  let n : ℕ := xs.length
  let h : ℚ := p / 100 * (n - 1)
  let lo : ℕ := (Rat.floor h).toNat
  let hi : ℕ := (ratCeil h).toNat
  let slo := s.getD lo 0
  let shi := s.getD hi 0
  slo + (h - Rat.floor h) * (shi - slo)

/-- view.py lines 197-198: iqr = q75 - q25 of the MB-valued sizes. -/
def iqr (xs : List ℚ) : ℚ := percentile xs 75 - percentile xs 25

/-- view.py line 200: bin_width = 2 * iqr / (n ** (1/3)) if n > 0 else 1.0.
The only guard is on n; nothing guards against iqr == 0. -/
noncomputable def bin_width (xs : List ℚ) : ℝ :=
  if 0 < xs.length then ((2 * iqr xs : ℚ) : ℝ) / (xs.length : ℝ) ^ ((1 : ℝ) / 3)
  else 1

open Classical in
/-- view.py line 201: bin_count = max(int(np.ceil((max - min) / bin_width)), 1).
When bin_width is 0 the float division yields nan (0/0) or inf (x/0), and
int() on a non-finite float raises, modelled as none; max()/min() of an empty
series are NaN, which also raises inside np.ceil conversion (none). -/
noncomputable def bin_count (xs : List ℚ) : Option ℤ :=
  if xs = [] then none
  else if bin_width xs = 0 then none
  else some (max (Int.ceil (((((seriesMax xs).getD 0 - (seriesMin xs).getD 0) : ℚ) : ℝ) /
    bin_width xs)) 1)

/-- view.py line 194: the sizes converted to megabytes. -/
def sizes_mb (df : Frame) : List ℚ := (sizesOf df).map (fun x => x / (1024 * 1024))

/-- view.py lines 178-225: the Freedman-Diaconis bin count computed from the
frame; the frame itself is only read. -/
noncomputable def plot_histogram (df : Frame) : Option ℤ × Frame :=
  (bin_count (sizes_mb df), df)

/-! ## DailyAggregator: view.py, plot_daily_file_counts (lines 228-273) -/

/-- view.py line 245: the date-only projection of a timestamp. -/
def date_only (r : FileRecord) : ℤ := Rat.floor r.created_time

/-- view.py line 248: df.groupby on date_only, then size — one (date, count) pair
per distinct date present, with group keys sorted ascending (the groupby
default), counting the rows carrying that date. -/
def daily_counts (rows : List FileRecord) : List (ℤ × ℕ) :=
  let ds := rows.map date_only
  ((ds.insertionSort (fun a b => a ≤ b)).dedup).map (fun d => (d, ds.count d))

/-- view.py lines 228-273: line 245 assigns the date_only column on the input
frame (a visible mutation of the caller's DataFrame), then groups by it. -/
def plot_daily_file_counts (df : Frame) : List (ℤ × ℕ) × Frame :=
  let df2 : Frame :=
    { rows := df.rows
      cols := if "date_only" ∈ df.cols then df.cols else df.cols ++ ["date_only"] }
  (daily_counts df2.rows, df2)

/-! ## Controller: controller.py, process_prefix (lines 18-54) -/

/-- The per-prefix results the controller produces for the reporting sinks. -/
structure Report where
  stats : Option StatsOutput
  histBins : Option ℤ
  daily : List (ℤ × ℕ)

/-- controller.py lines 18-54: fetch, and if the frame is empty skip every
downstream aggregation (none); otherwise run the views in order, threading
the frame through them (plot_daily_file_counts mutates it). -/
noncomputable def process_prefix_pipeline (f : List FileRecord → List FileRecord)
    (raw : List RawRecord) : Option Report :=
  let df := fetchFrame f raw
  if df.rows = [] then none
  else
    let r1 := show_statistics df
    let r2 := plot_histogram r1.2
    let r3 := plot_daily_file_counts r2.2
    some { stats := r1.1, histBins := r2.1, daily := r3.1 }

/-! ## Helper lemmas -/

/-- np.percentile of a constant sequence is that constant, for any 0 ≤ p ≤ 100. -/
theorem percentile_all_eq {xs : List ℚ} {c : ℚ} (hne : xs ≠ [])
    (hall : ∀ x ∈ xs, x = c) {p : ℚ} (hp0 : 0 ≤ p) (hp1 : p ≤ 100) :
    percentile xs p = c := by
  have hn : 0 < xs.length := List.length_pos.mpr hne
  have hperm := List.perm_insertionSort (fun a b : ℚ => a ≤ b) xs
  have hsl : (xs.insertionSort (fun a b => a ≤ b)).length = xs.length := hperm.length_eq
  have hsall : ∀ x ∈ xs.insertionSort (fun a b => a ≤ b), x = c := fun x hx =>
    hall x (hperm.mem_iff.mp hx)
  have h1 : (1 : ℚ) ≤ (xs.length : ℚ) := by exact_mod_cast hn
  have hq0 : (0 : ℚ) ≤ p / 100 := by positivity
  have hq1 : p / 100 ≤ 1 := (div_le_one (show (0:ℚ) < 100 by norm_num)).mpr hp1
  have hh0 : 0 ≤ p / 100 * ((xs.length : ℚ) - 1) := by nlinarith
  have hh1 : p / 100 * ((xs.length : ℚ) - 1) ≤ (xs.length : ℚ) - 1 := by nlinarith
  have hfl0 : 0 ≤ ⌊p / 100 * ((xs.length : ℚ) - 1)⌋ := Int.floor_nonneg.mpr hh0
  have hflc : ⌊((xs.length : ℚ) - 1)⌋ = (xs.length : ℤ) - 1 := by
    rw [show ((xs.length : ℚ) - 1) = (((xs.length : ℤ) - 1 : ℤ) : ℚ) by push_cast; ring,
      Int.floor_intCast]
  have hfl1 : ⌊p / 100 * ((xs.length : ℚ) - 1)⌋ ≤ (xs.length : ℤ) - 1 := by
    have h2 := Int.floor_le_floor hh1
    rw [hflc] at h2
    exact h2
  have hcl1 : ⌈p / 100 * ((xs.length : ℚ) - 1)⌉ ≤ (xs.length : ℤ) - 1 := by
    refine Int.ceil_le.mpr ?_
    push_cast; linarith
  have hlo : (Rat.floor (p / 100 * ((xs.length : ℚ) - 1))).toNat <
      (xs.insertionSort (fun a b => a ≤ b)).length := by
    rw [ratFloor_eq, hsl]; omega
  have hhi : (ratCeil (p / 100 * ((xs.length : ℚ) - 1))).toNat <
      (xs.insertionSort (fun a b => a ≤ b)).length := by
    rw [ratCeil_eq, hsl]; omega
  simp only [percentile]
  rw [List.getD_eq_getElem _ 0 hlo, List.getD_eq_getElem _ 0 hhi,
    hsall _ (List.getElem_mem hlo), hsall _ (List.getElem_mem hhi)]
  ring

/-! ## Claim C1 -/

/-- C1 (code_bug): the claim states that for a non-empty record set of
all-equal sizes (iqr = 0) the bin width falls back to 1.0 and compute_bins
still returns a positive bin width without dividing by zero.  The code has no
such guard: the n-guard of view.py line 200 leaves bin_width = 0 when iqr = 0,
and line 201 then divides by zero, so int(np.ceil(nan)) raises (none). -/
theorem bin_width_zero_of_constant_sizes {xs : List ℚ} {c : ℚ} (hne : xs ≠ [])
    (hall : ∀ x ∈ xs, x = c) :
    bin_width xs = 0 ∧ bin_count xs = none := by
  have hiqr : iqr xs = 0 := by
    rw [iqr, percentile_all_eq hne hall (by norm_num) (by norm_num),
      percentile_all_eq hne hall (by norm_num) (by norm_num), sub_self]
  have hbw : bin_width xs = 0 := by
    rw [bin_width, if_pos (List.length_pos.mpr hne), hiqr]
    norm_num
  refine ⟨hbw, ?_⟩
  rw [bin_count, if_neg hne, if_pos hbw]

/-- C1 witness: two files of equal size (1 MB each in MB units). -/
theorem bin_width_zero_of_constant_sizes_witness :
    bin_width [1, 1] = 0 ∧ bin_count [1, 1] = none :=
  bin_width_zero_of_constant_sizes (c := 1) (by simp) (by simp)

/-! ## Claim C8 -/

/-- C8 (confirmed): fetch_file_records excludes exactly the raw records whose
name ends with the path separator and keeps all others (as a multiset, via any
sort consistent with sort_values), and membership in the result is exactly
image-membership of the non-directory raw records. -/
theorem fetch_keeps_exactly_non_directory_records
    (f : List FileRecord → List FileRecord) (h : SortsByCreated f)
    (raw : List RawRecord) :
    (fetch_file_records f raw).Perm ((raw.filter keepRecord).map toFileRecord) ∧
    ∀ r : FileRecord, r ∈ fetch_file_records f raw ↔
      ∃ q ∈ raw, endsWithSlash q.name = false ∧ toFileRecord q = r := by
  constructor
  · exact (h _).1
  · intro r
    unfold fetch_file_records
    rw [(h _).1.mem_iff]
    simp [List.mem_map, List.mem_filter, keepRecord, and_assoc]

/-- C8 witness: a directory marker "a/" plus a file "a/b.txt" normalize to a
single record. -/
theorem fetch_keeps_exactly_non_directory_records_witness :
    (fetch_file_records sortByCreated
      [{ name := "a/", size := 0, created := 0 },
       { name := "a/b.txt", size := 1, created := 0 }]).length = 1 := by
  have h := (fetch_keeps_exactly_non_directory_records sortByCreated
    sortsByCreated_sortByCreated
    [{ name := "a/", size := 0, created := 0 },
     { name := "a/b.txt", size := 1, created := 0 }]).1
  rw [h.length_eq]
  decide

/-! ## Claims C2 and C10: the size formatter -/

/-- The negative-exponent branch of the formatter: np.power with an integer
base and a negative integer exponent raises ValueError, so human_readable_size
fails before any tuple indexing. -/
theorem hr_none_of_log_neg {x : ℚ} (h0 : ¬ x = 0) (h1 : ¬ x < 0)
    (h : Int.log 1024 x < 0) : human_readable_size x = none := by
  unfold human_readable_size
  rw [if_neg h0, if_neg h1]
  dsimp only
  rw [if_pos h]

/-- C10 counterexample: the claim asserts that an input strictly between 0
and 1 makes the formatter return a string labelled with a large unit such as
"PB" via negative list indexing; but at x = 1/2 the call returns no string at
all — the negative unit index -1 makes np.power(1024, -1) at model.py line 31
raise ValueError (an integer base to a negative integer power), before the
tuple indexing of line 33 is ever reached. -/
theorem hr_size_half_returns_no_string :
    human_readable_size (1/2 : ℚ) = none := by
  have hlog : Int.log 1024 (1/2 : ℚ) = -1 := by
    refine int_log_eval (by norm_num) (by norm_num) ?_ ?_
    · have e : ((1024 : ℕ) : ℚ) ^ (-1 : ℤ) = 1/1024 := by norm_num
      rw [e]; norm_num
    · have e : ((1024 : ℕ) : ℚ) ^ ((-1 : ℤ) + 1) = 1 := by norm_num
      rw [e]; norm_num
  refine hr_none_of_log_neg (by norm_num) (by norm_num) ?_
  rw [hlog]
  norm_num

/-- C10 amended: for every x with 0 < x < 1 the size formatter does compute a
negative unit index floor(log(x)/log(1024)), but it then raises ValueError at
np.power(1024, i) (model.py line 31, integer base to a negative integer
power) and returns no string: the negative-list-indexing path of line 33,
which would have selected a large unit such as "PB", is never reached.  Unit
selection at the low end is thus broken by an exception, not by a mislabelled
large unit. -/
theorem hr_size_fractional_input_raises (x : ℚ) (h1 : 0 < x) (h2 : x < 1) :
    Int.log 1024 x < 0 ∧ human_readable_size x = none := by
  have hneg : Int.log 1024 x < 0 := by
    refine (Int.lt_zpow_iff_log_lt (by norm_num) h1).mp ?_
    have e : ((1024 : ℕ) : ℚ) ^ (0 : ℤ) = 1 := by norm_num
    rw [e]
    exact h2
  exact ⟨hneg, hr_none_of_log_neg (ne_of_gt h1) (not_lt.mpr h1.le) hneg⟩

/-- C10 witness: x = 1/4 (a fractional mean below one byte) gets a negative
unit index and the formatter raises (none). -/
theorem hr_size_fractional_input_raises_witness :
    Int.log 1024 (1/4 : ℚ) < 0 ∧ human_readable_size (1/4 : ℚ) = none :=
  hr_size_fractional_input_raises (1/4) (by norm_num) (by norm_num)

/-! ## Claim C3: the standard deviation -/

/-- Modelled from the spec: the sample variance, the square of the sample
standard deviation with denominator count - 1 (Bessel's correction), of which
the spec's stddev is the square root. -/
def specSampleVar (xs : List ℚ) : ℚ :=
  (xs.map (fun x => (x - xs.sum / xs.length) ^ 2)).sum / (xs.length - 1)

/-- C3 counterexample: on a single-element series pandas std (ddof=1) is NaN,
not the 0.0 the claim asserts, and show_statistics then raises when
formatting it. -/
theorem series_std_single_element_is_nan :
    series_std [(5 : ℚ)] = none ∧ series_std [(5 : ℚ)] ≠ some 0 := by
  constructor
  · simp [series_std, seriesSampleVar]
  · simp [series_std, seriesSampleVar]

/-- C3 amended: for every series of at least two values the code's standard
deviation is exactly the square root of the sample variance with denominator
count - 1; for a single value it is NaN (none), not 0.0. -/
theorem series_std_eq_sample_std (xs : List ℚ) (h : 2 ≤ xs.length) :
    seriesSampleVar xs = some (specSampleVar xs) ∧
    series_std xs = some (Real.sqrt ((specSampleVar xs : ℚ) : ℝ)) := by
  constructor
  · rw [seriesSampleVar, if_pos h, specSampleVar]
  · rw [series_std, seriesSampleVar, if_pos h, Option.map_some']
    rw [specSampleVar]

/-- C3 witness: the spec's own vector 100, 200, 300 has sample stddev 100. -/
theorem series_std_eq_sample_std_witness :
    series_std [100, 200, 300] = some 100 := by
  have h := (series_std_eq_sample_std [100, 200, 300] (by norm_num)).2
  rw [h]
  have hv : specSampleVar [100, 200, 300] = 10000 := by
    simp [specSampleVar]
    norm_num
  rw [hv, show ((10000 : ℚ) : ℝ) = (100 : ℝ) ^ 2 from by norm_num,
    Real.sqrt_sq (by norm_num)]

/-! ## Claim C5: empty input -/

/-- C5 (confirmed): on an empty record set the statistics computation fails
(pandas mean is NaN and formatting it raises, modelled none) rather than
returning a value, and the controller pre-checks emptiness and skips all
processing (process_prefix_pipeline none). -/
theorem statistics_on_empty_fail_and_controller_prechecks :
    (∀ df : Frame, df.rows = [] → (show_statistics df).1 = none) ∧
    (∀ f raw, fetch_file_records f raw = [] → process_prefix_pipeline f raw = none) := by
  constructor
  · intro df h
    simp [show_statistics, sizesOf, h, seriesMean, hrOpt]
  · intro f raw h
    simp [process_prefix_pipeline, fetchFrame, h]

/-- C5 witness: the empty frame, and a listing holding only a directory
marker (whose normalized record set is empty). -/
theorem statistics_on_empty_fail_and_controller_prechecks_witness :
    (show_statistics { rows := [], cols := [] }).1 = none ∧
    process_prefix_pipeline sortByCreated [{ name := "a/", size := 0, created := 0 }] = none := by
  refine ⟨statistics_on_empty_fail_and_controller_prechecks.1 { rows := [], cols := [] } rfl,
    statistics_on_empty_fail_and_controller_prechecks.2 sortByCreated _ ?_⟩
  decide

/-! ## Claim C6: frame effects of the aggregations -/

/-- C6 counterexample: plot_daily_file_counts does not leave its input frame
unchanged — line 245 adds the date_only column to the caller's DataFrame. -/
theorem plot_daily_mutates_input_frame :
    (plot_daily_file_counts { rows := [], cols := baseCols }).2 ≠
      { rows := [], cols := baseCols } := by
  simp [plot_daily_file_counts, baseCols]

/-- C6 amended: show_statistics and plot_histogram are pure in the claimed
sense (the input frame is returned unchanged), but plot_daily_file_counts
preserves only the rows and extends the column set with date_only (when not
already present). -/
theorem aggregation_frame_effects (df : Frame) :
    (show_statistics df).2 = df ∧
    (plot_histogram df).2 = df ∧
    (plot_daily_file_counts df).2.rows = df.rows ∧
    (plot_daily_file_counts df).2.cols =
      (if "date_only" ∈ df.cols then df.cols else df.cols ++ ["date_only"]) :=
  ⟨rfl, rfl, rfl, rfl⟩

/-! ## Claim C7: daily aggregation -/

/-- C7 (confirmed): daily_counts emits exactly one pair per distinct date
present (membership characterisation plus strictly ascending first
components), with the count of records carrying that date, and every emitted
count is positive — no entry is synthesized for a date with zero files. -/
theorem daily_counts_groups_by_present_dates (rows : List FileRecord) (_h : rows ≠ []) :
    (∀ d n, (d, n) ∈ daily_counts rows ↔
      (d ∈ rows.map date_only ∧ n = (rows.map date_only).count d)) ∧
    (daily_counts rows).Pairwise (fun a b => a.1 < b.1) ∧
    (∀ p ∈ daily_counts rows, 0 < p.2) := by
  have hperm := List.perm_insertionSort (fun a b : ℤ => a ≤ b) (rows.map date_only)
  refine ⟨?_, ?_, ?_⟩
  · intro d n
    simp only [daily_counts, List.mem_map, List.mem_dedup, hperm.mem_iff]
    constructor
    · rintro ⟨a, ha, heq⟩
      have h1 : a = d := congrArg Prod.fst heq
      subst h1
      exact ⟨ha, (congrArg Prod.snd heq).symm⟩
    · rintro ⟨hd, rfl⟩
      exact ⟨d, hd, rfl⟩
  · have hsorted : (List.insertionSort (fun a b : ℤ => a ≤ b)
        (rows.map date_only)).Pairwise (fun a b : ℤ => a ≤ b) :=
      List.sorted_insertionSort _ _
    have hle := hsorted.sublist (List.dedup_sublist _)
    have hnd := List.nodup_dedup (List.insertionSort (fun a b : ℤ => a ≤ b)
      (rows.map date_only))
    have hlt := (hle.and hnd).imp (fun hab => lt_of_le_of_ne hab.1 hab.2)
    exact List.Pairwise.map _ (fun a b hab => hab) hlt
  · intro p hp
    simp only [daily_counts, List.mem_map] at hp
    obtain ⟨a, ha, rfl⟩ := hp
    exact List.count_pos_iff.mpr (hperm.mem_iff.mp (List.mem_dedup.mp ha))

/-- Five records spanning two calendar days: three on day 0, two on day 1. -/
def twoDayRows : List FileRecord :=
  [{ file_name := "a", file_size_bytes := 1, created_time := 0 },
   { file_name := "b", file_size_bytes := 2, created_time := 0 },
   { file_name := "c", file_size_bytes := 3, created_time := 0 },
   { file_name := "d", file_size_bytes := 4, created_time := 1 },
   { file_name := "e", file_size_bytes := 5, created_time := 1 }]

/-- C7 witness: the spec's example — 3 files on one date, 2 on the next,
aggregated as (day 0, 3) and (day 1, 2) in ascending date order. -/
theorem daily_counts_groups_by_present_dates_witness :
    (0, 3) ∈ daily_counts twoDayRows ∧ (1, 2) ∈ daily_counts twoDayRows ∧
    (daily_counts twoDayRows).Pairwise (fun a b => a.1 < b.1) := by
  have h := daily_counts_groups_by_present_dates twoDayRows (by simp [twoDayRows])
  exact ⟨(h.1 0 3).mpr (by decide), (h.1 1 2).mpr (by decide), h.2.1⟩

end GCSStats
